import Mathlib

/-!
Shallow embedding of the bidask arbitrage core (rate graph, opportunity
detector, risk gate, execution engine) translated from the TypeScript
sources, together with theorems settling the specification claims.

JavaScript numbers are modelled as exact rationals (ℚ); every comparison
and arithmetic operation in the claims is exact at the inputs considered.
-/

/-- `PriceQuote` from `src/types` as used by the feeds, detector and risk
gate: venue id, mints, amounts, derived unit price, price-impact fraction,
fees, liquidity (0 when unknown). -/
structure PriceQuote where
  dex : String
  inputMint : String
  outputMint : String
  inputAmount : ℚ
  outputAmount : ℚ
  price : ℚ
  priceImpact : ℚ
  fees : ℚ
  liquidity : ℚ
deriving DecidableEq, Repr

/-- `Edge` from `src/engine/graph.ts`: destination token, venue, unit rate
(output per input), optional backing quote. -/
structure Edge where
  toTok : String
  dex : String
  price : ℚ
  quote : Option PriceQuote
deriving DecidableEq, Repr

/-- `TokenGraph.adjList` (`Map<string, Edge[]>`) viewed extensionally:
`getNeighbors` returns `adjList.get(token) || []`, so the map is a total
function from tokens to edge lists defaulting to `[]`. -/
def TokenGraph : Type := String → List Edge

/-- `TokenGraph.getNeighbors` (graph.ts line 41). -/
def getNeighbors (g : TokenGraph) (token : String) : List Edge := g token

/-- The body of `TokenGraph.updateEdge` acting on one adjacency list
(graph.ts lines 28-35): `findIndex` locates the first edge with the same
`(to, dex)` key and assigns in place; otherwise the edge is pushed. -/
def upsertInList (e : Edge) : List Edge → List Edge
  | [] => [e]
  | x :: xs => if x.toTok = e.toTok ∧ x.dex = e.dex then e :: xs else x :: upsertInList e xs

/-- `TokenGraph.updateEdge` (graph.ts lines 25-36). -/
def updateEdge (g : TokenGraph) (fromToken toToken dex : String) (price : ℚ)
    (quote : Option PriceQuote) : TokenGraph :=
  fun t =>
    if t = fromToken then upsertInList ⟨toToken, dex, price, quote⟩ (g fromToken) else g t

/-- `TokenGraph.findTriangles` (graph.ts lines 49-84): enumerate edges out
of `startToken`, then out of the first edge's destination (skipping edges
returning immediately to start), then out of the second destination keeping
only edges landing back on start; report the path when the composite rate
exceeds 1 with `profitBps = (compositeRate - 1) * 10000`. -/
def findTriangles (g : TokenGraph) (startToken : String) : List (List Edge × ℚ) :=
  (getNeighbors g startToken).flatMap fun e1 =>
    (getNeighbors g e1.toTok).flatMap fun e2 =>
      if e2.toTok = startToken then []
      else
        (getNeighbors g e2.toTok).filterMap fun e3 =>
          if e3.toTok = startToken then
            let compositeRate := e1.price * e2.price * e3.price
            if compositeRate > 1 then
              some ([e1, e2, e3], (compositeRate - 1) * 10000)
            else none
          else none

/-- An adjacency list has at most one edge per `(to, dex)` key. -/
def NoDupKeys (l : List Edge) : Prop :=
  l.Pairwise fun a b => ¬(a.toTok = b.toTok ∧ a.dex = b.dex)

/-- C1: a 3-edge path is reported by `findTriangles` iff it chains
start → A → B → start (A ≠ start excluded on the middle edge) and its
composite rate exceeds 1, and its profitBps is `(r1*r2*r3 - 1) * 10000`. -/
theorem findTriangles_mem_iff (g : TokenGraph) (start : String)
    (e1 e2 e3 : Edge) (p : ℚ) :
    ([e1, e2, e3], p) ∈ findTriangles g start ↔
      e1 ∈ getNeighbors g start ∧ e2 ∈ getNeighbors g e1.toTok ∧ e2.toTok ≠ start ∧
      e3 ∈ getNeighbors g e2.toTok ∧ e3.toTok = start ∧
      e1.price * e2.price * e3.price > 1 ∧
      p = (e1.price * e2.price * e3.price - 1) * 10000 := by
  constructor
  · intro h
    simp only [findTriangles, List.mem_flatMap] at h
    obtain ⟨a, ha, b, hb, h⟩ := h
    by_cases hbs : b.toTok = start
    · simp [hbs] at h
    · simp only [hbs, if_false, List.mem_filterMap] at h
      obtain ⟨c, hc, h⟩ := h
      by_cases hcs : c.toTok = start
      · simp only [hcs, if_true] at h
        by_cases hrate : a.price * b.price * c.price > 1
        · simp only [hrate, if_true, Option.some.injEq, Prod.mk.injEq] at h
          obtain ⟨hpath, hp⟩ := h
          obtain ⟨h1, h2, h3⟩ : a = e1 ∧ b = e2 ∧ c = e3 := by
            simpa using hpath
          subst h1; subst h2; subst h3
          exact ⟨ha, hb, hbs, hc, hcs, hrate, hp.symm⟩
        · simp [hrate] at h
      · simp [hcs] at h
  · rintro ⟨h1, h2, h3, h4, h5, h6, h7⟩
    simp only [findTriangles, List.mem_flatMap]
    refine ⟨e1, h1, e2, h2, ?_⟩
    simp only [h3, if_false, List.mem_filterMap]
    exact ⟨e3, h4, by simp [h5, h6, h7]⟩

/-- Replacing by the same key twice is the same as once (helper for C8). -/
theorem upsertInList_idem (e : Edge) (l : List Edge) :
    upsertInList e (upsertInList e l) = upsertInList e l := by
  induction l with
  | nil => simp [upsertInList]
  | cons x xs ih =>
    by_cases h : x.toTok = e.toTok ∧ x.dex = e.dex
    · simp [upsertInList, h]
    · simp only [upsertInList, if_neg h, ih]

/-- Everything in the upserted list is the new edge or an old entry
(helper for C8). -/
theorem mem_of_mem_upsertInList (e b : Edge) (l : List Edge)
    (hb : b ∈ upsertInList e l) : b = e ∨ b ∈ l := by
  induction l with
  | nil => simpa [upsertInList] using hb
  | cons x xs ih =>
    by_cases hk : x.toTok = e.toTok ∧ x.dex = e.dex
    · rw [upsertInList, if_pos hk] at hb
      rcases List.mem_cons.mp hb with hbe | hbxs
      · exact Or.inl hbe
      · exact Or.inr (List.mem_cons_of_mem x hbxs)
    · rw [upsertInList, if_neg hk] at hb
      rcases List.mem_cons.mp hb with hbx | hbxs
      · exact Or.inr (hbx ▸ List.mem_cons_self x xs)
      · rcases ih hbxs with hbe | hbm
        · exact Or.inl hbe
        · exact Or.inr (List.mem_cons_of_mem x hbm)

/-- `upsertInList` preserves key uniqueness (helper for C8). -/
theorem upsertInList_nodup (e : Edge) (l : List Edge) (h : NoDupKeys l) :
    NoDupKeys (upsertInList e l) := by
  induction l with
  | nil => simp [upsertInList, NoDupKeys]
  | cons x xs ih =>
    rw [NoDupKeys, List.pairwise_cons] at h
    obtain ⟨hx, hxs⟩ := h
    by_cases hk : x.toTok = e.toTok ∧ x.dex = e.dex
    · rw [upsertInList, if_pos hk, NoDupKeys, List.pairwise_cons]
      refine ⟨fun b hb hcon => hx b hb ?_, hxs⟩
      exact ⟨hk.1.trans hcon.1, hk.2.trans hcon.2⟩
    · rw [upsertInList, if_neg hk, NoDupKeys, List.pairwise_cons]
      refine ⟨fun b hb => ?_, ih hxs⟩
      rcases mem_of_mem_upsertInList e b xs hb with hbe | hbm
      · exact hbe ▸ fun hcon => hk ⟨hcon.1, hcon.2⟩
      · exact hx b hbm

/-- If no edge in the list has the new edge's key, upsert appends (helper). -/
theorem upsertInList_append (e : Edge) (l : List Edge)
    (h : ∀ x ∈ l, ¬(x.toTok = e.toTok ∧ x.dex = e.dex)) :
    upsertInList e l = l ++ [e] := by
  induction l with
  | nil => simp [upsertInList]
  | cons x xs ih =>
    rw [upsertInList, if_neg (h x (List.mem_cons_self x xs))]
    rw [ih fun c hc => h c (List.mem_cons_of_mem x hc)]
    simp

/-- If some edge in the list has the new edge's key, upsert replaces in
place and keeps the length (helper). -/
theorem upsertInList_replace (e : Edge) (l : List Edge)
    (h : ∃ x ∈ l, x.toTok = e.toTok ∧ x.dex = e.dex) :
    (upsertInList e l).length = l.length ∧ e ∈ upsertInList e l := by
  induction l with
  | nil => simp at h
  | cons x xs ih =>
    by_cases hk : x.toTok = e.toTok ∧ x.dex = e.dex
    · rw [upsertInList, if_pos hk]
      simp
    · rw [upsertInList, if_neg hk]
      obtain ⟨c, hc, hck⟩ := h
      rcases List.mem_cons.mp hc with hce | hcxs
      · exact absurd (hce ▸ hck) hk
      · obtain ⟨h1, h2⟩ := ih ⟨c, hcxs, hck⟩
        exact ⟨by simp [h1], List.mem_cons_of_mem x h2⟩

/-- C8: `updateEdge` keeps at most one edge per `(from, to, venue)` key
(key uniqueness of every adjacency list is preserved), appends exactly when
the key is absent, replaces in place keeping the length when the key is
present, and repeating `updateEdge` with identical inputs is idempotent. -/
theorem updateEdge_keyed_upsert :
    (∀ (g : TokenGraph) (f t d : String) (p : ℚ) (q : Option PriceQuote) (tok : String),
      NoDupKeys (getNeighbors g tok) →
      NoDupKeys (getNeighbors (updateEdge g f t d p q) tok)) ∧
    (∀ (g : TokenGraph) (f t d : String) (p : ℚ) (q : Option PriceQuote),
      updateEdge (updateEdge g f t d p q) f t d p q = updateEdge g f t d p q) ∧
    (∀ (e : Edge) (l : List Edge), (∀ x ∈ l, ¬(x.toTok = e.toTok ∧ x.dex = e.dex)) →
      upsertInList e l = l ++ [e]) ∧
    (∀ (e : Edge) (l : List Edge), (∃ x ∈ l, x.toTok = e.toTok ∧ x.dex = e.dex) →
      (upsertInList e l).length = l.length ∧ e ∈ upsertInList e l) := by
  refine ⟨?_, ?_, upsertInList_append, upsertInList_replace⟩
  · intro g f t d p q tok h
    by_cases htok : tok = f
    · subst htok
      simp only [getNeighbors, updateEdge, if_pos rfl] at h ⊢
      exact upsertInList_nodup _ _ h
    · simpa only [getNeighbors, updateEdge, if_neg htok] using h
  · intro g f t d p q
    funext tok
    by_cases htok : tok = f
    · subst htok
      simp only [updateEdge, if_pos rfl]
      exact upsertInList_idem _ _
    · simp only [updateEdge, if_neg htok]

/-- Witness for C8 at concrete inputs: a graph holding one SOL→USDC orca
edge; re-upserting the same key replaces in place, a fresh key appends, key
uniqueness is preserved, and the repeated upsert is idempotent. -/
theorem updateEdge_keyed_upsert_witness :
    (upsertInList ⟨"USDC", "orca", 2, none⟩ [⟨"USDC", "orca", 1, none⟩]).length = 1 ∧
    upsertInList ⟨"USDC", "raydium", 3, none⟩ [⟨"USDC", "orca", 1, none⟩] =
      [⟨"USDC", "orca", 1, none⟩, ⟨"USDC", "raydium", 3, none⟩] ∧
    NoDupKeys (getNeighbors
      (updateEdge (fun _ => []) "SOL" "USDC" "orca" 2 none) "SOL") ∧
    updateEdge (updateEdge (fun _ => []) "SOL" "USDC" "orca" 2 none)
      "SOL" "USDC" "orca" 2 none =
      updateEdge (fun _ => []) "SOL" "USDC" "orca" 2 none := by
  refine ⟨(updateEdge_keyed_upsert.2.2.2 _ _ ?_).1, ?_, ?_, ?_⟩
  · exact ⟨⟨"USDC", "orca", 1, none⟩, by simp, by simp⟩
  · exact updateEdge_keyed_upsert.2.2.1 _ _ (by simp)
  · exact updateEdge_keyed_upsert.1 _ "SOL" "USDC" "orca" 2 none "SOL"
      (by simp [getNeighbors, NoDupKeys])
  · exact updateEdge_keyed_upsert.2.1 _ "SOL" "USDC" "orca" 2 none

/-- One candidate produced by `PriceAggregator.getCrossExchangeQuotes`
(feeds/aggregator.ts lines 143-150). -/
structure CrossOpp where
  buyDex : String
  sellDex : String
  buyQuote : PriceQuote
  sellQuote : PriceQuote
  spreadBps : ℚ
  estimatedProfit : ℚ
deriving DecidableEq, Repr

/-- The candidate-enumeration loop of
`PriceAggregator.getCrossExchangeQuotes` (aggregator.ts lines 170-193):
for every (buy, sell) pair on different venues, spread =
`(sellQuote.price - (1 / buyQuote.price)) / (1 / buyQuote.price)`,
`spreadBps = spread * 10000`, kept only when `spreadBps > 0`. -/
def crossOpportunities (buyQuotes sellQuotes : List PriceQuote) : List CrossOpp :=
  buyQuotes.flatMap fun buyQuote =>
    sellQuotes.filterMap fun sellQuote =>
      if buyQuote.dex = sellQuote.dex then none
      else
        let spread := (sellQuote.price - 1 / buyQuote.price) / (1 / buyQuote.price)
        let spreadBps := spread * 10000
        let estimatedProfit :=
          sellQuote.outputAmount - buyQuote.inputAmount - (buyQuote.fees + sellQuote.fees)
        if spreadBps > 0 then
          some ⟨buyQuote.dex, sellQuote.dex, buyQuote, sellQuote, spreadBps, estimatedProfit⟩
        else none

/-- `PriceAggregator.getCrossExchangeQuotes` opportunity list
(aggregator.ts lines 170-202): the enumerated candidates sorted by
descending `spreadBps` (`sort((a, b) => b.spreadBps - a.spreadBps)`). -/
def getCrossExchangeQuotes (buyQuotes sellQuotes : List PriceQuote) : List CrossOpp :=
  (crossOpportunities buyQuotes sellQuotes).mergeSort
    fun a b => decide (b.spreadBps ≤ a.spreadBps)

/-- C2: every candidate reported by the pairwise scan carries
`spreadBps = ((sellPrice - (1/buyPrice)) / (1/buyPrice)) * 10000`: the
buy-side price (input-per-output) is inverted before being subtracted from
the output-denominated sell price. The candidate's quotes come from the
buy/sell lists and sit on distinct venues. -/
theorem getCrossExchangeQuotes_spread (buyQuotes sellQuotes : List PriceQuote)
    (o : CrossOpp) (ho : o ∈ getCrossExchangeQuotes buyQuotes sellQuotes) :
    o.spreadBps =
      (o.sellQuote.price - 1 / o.buyQuote.price) / (1 / o.buyQuote.price) * 10000 ∧
    o.buyDex = o.buyQuote.dex ∧ o.sellDex = o.sellQuote.dex ∧
    o.buyQuote ∈ buyQuotes ∧ o.sellQuote ∈ sellQuotes ∧
    o.buyQuote.dex ≠ o.sellQuote.dex ∧ o.spreadBps > 0 := by
  rw [getCrossExchangeQuotes, List.mem_mergeSort] at ho
  simp only [crossOpportunities, List.mem_flatMap, List.mem_filterMap] at ho
  obtain ⟨b, hb, s, hs, h⟩ := ho
  by_cases hd : b.dex = s.dex
  · simp [hd] at h
  · rw [if_neg hd] at h
    split at h
    next hsp =>
      rw [Option.some.injEq] at h
      subst h
      exact ⟨rfl, rfl, rfl, hb, hs, hd, hsp⟩
    next hsp => exact Option.noConfusion h

/-- Concrete buy-side quote used by the C2 witness: unit price 0.015
input-per-output. -/
def buyQuoteEx : PriceQuote := ⟨"orca", "SOL", "TOK", 1, 3/200, 3/200, 0, 0, 0⟩

/-- Concrete sell-side quote used by the C2 witness: unit price 70
output-per-input. -/
def sellQuoteEx : PriceQuote := ⟨"jupiter", "TOK", "SOL", 1, 70, 70, 0, 0, 0⟩

/-- The candidate the pairwise scan builds from the two example quotes. -/
def crossOppEx : CrossOpp :=
  ⟨"orca", "jupiter", buyQuoteEx, sellQuoteEx,
   (sellQuoteEx.price - 1 / buyQuoteEx.price) / (1 / buyQuoteEx.price) * 10000,
   sellQuoteEx.outputAmount - buyQuoteEx.inputAmount - (buyQuoteEx.fees + sellQuoteEx.fees)⟩

/-- Witness for C2 at the spec's concrete inputs: buy price 0.015
input-per-output, sell price 70 output-per-input; the candidate is reported
and its spread follows the inverted-buy formula, evaluating to 500 bps. -/
theorem getCrossExchangeQuotes_spread_witness :
    crossOppEx ∈ getCrossExchangeQuotes [buyQuoteEx] [sellQuoteEx] ∧
    crossOppEx.spreadBps =
      (crossOppEx.sellQuote.price - 1 / crossOppEx.buyQuote.price) /
        (1 / crossOppEx.buyQuote.price) * 10000 ∧
    crossOppEx.spreadBps = 500 := by
  have hmem : crossOppEx ∈ getCrossExchangeQuotes [buyQuoteEx] [sellQuoteEx] := by
    rw [getCrossExchangeQuotes, List.mem_mergeSort]
    simp only [crossOpportunities, List.flatMap_cons, List.flatMap_nil,
      List.filterMap_cons, List.filterMap_nil]
    norm_num [buyQuoteEx, sellQuoteEx, crossOppEx]
    simp
  refine ⟨hmem, (getCrossExchangeQuotes_spread _ _ _ hmem).1, ?_⟩
  norm_num [crossOppEx, buyQuoteEx, sellQuoteEx]

/-- `DetectorConfig` (detector.ts lines 9-13). -/
structure DetectorConfig where
  minProfitBps : ℚ
  maxSlippageBps : ℚ
  minLiquidityUsd : ℚ
  opportunityTtlMs : ℚ
deriving DecidableEq, Repr

/-- `ArbitrageDetector.passesFilters` (detector.ts lines 215-221): reject
when the spread is below the minimum, when either leg's price impact
exceeds `maxSlippageBps / 100`, or when either leg's liquidity is known
(> 0) and below the minimum. -/
def passesFilters (cfg : DetectorConfig) (buyQuote sellQuote : PriceQuote)
    (spreadBps : ℚ) : Bool :=
  if spreadBps < cfg.minProfitBps then false
  else if buyQuote.priceImpact > cfg.maxSlippageBps / 100 ∨
      sellQuote.priceImpact > cfg.maxSlippageBps / 100 then false
  else if (buyQuote.liquidity > 0 ∧ buyQuote.liquidity < cfg.minLiquidityUsd) ∨
      (sellQuote.liquidity > 0 ∧ sellQuote.liquidity < cfg.minLiquidityUsd) then false
  else true

/-- Admission decision for one candidate in the pairwise scan
(`ArbitrageDetector.scanToken`, detector.ts lines 160-169): passesFilters,
then gas-netted profit must be strictly positive
(`gasEstimate = 0.001 SOL`). -/
def scanTokenAdmits (cfg : DetectorConfig) (solPrice amount : ℚ)
    (opp : CrossOpp) : Bool :=
  if !passesFilters cfg opp.buyQuote opp.sellQuote opp.spreadBps then false
  else
    let gasEstimate : ℚ := 1/1000
    let gasCostUsd := gasEstimate * solPrice
    let tradeSizeUsd := amount * solPrice
    let grossProfitUsd := opp.spreadBps / 10000 * tradeSizeUsd
    let netProfitUsd := grossProfitUsd - gasCostUsd
    if netProfitUsd ≤ 0 then false else true

/-- Admission decision for one triangle in the cyclic scan
(`ArbitrageDetector.scanGraph`, detector.ts lines 69-77): only
`tri.profitBps < minProfitBps` and the gas-netted profit gate
(`gasEstimate = 0.003 SOL`) are checked. -/
def scanGraphAdmits (cfg : DetectorConfig) (solPrice amount : ℚ)
    (tri : List Edge × ℚ) : Bool :=
  if tri.2 < cfg.minProfitBps then false
  else
    let gasEstimateUsd := 3/1000 * solPrice
    let tradeSizeUsd := amount * solPrice
    let grossProfitUsd := tri.2 / 10000 * tradeSizeUsd
    let netProfitUsd := grossProfitUsd - gasEstimateUsd
    if netProfitUsd ≤ 0 then false else true

/-- A leg quote with huge price impact (10, i.e. far above any bps
ceiling), used to refute C3. -/
def highImpactQuote : PriceQuote := ⟨"orca", "SOL", "A", 1, 2, 2, 10, 0, 0⟩

/-- Detector configuration used by the C3 counterexample. -/
def cfgEx : DetectorConfig := ⟨50, 100, 1000, 5000⟩

/-- A triangle whose legs all carry `highImpactQuote` and whose profit is
300 bps. -/
def triEx : List Edge × ℚ :=
  ([⟨"A", "orca", 2, some highImpactQuote⟩,
    ⟨"B", "raydium", 2, some highImpactQuote⟩,
    ⟨"SOL", "jupiter", 2, some highImpactQuote⟩], 300)

/-- Counterexample to C3: the cyclic scan admits a triangle whose legs'
price impact (10) exceeds the configured ceiling
(`maxSlippageBps / 100 = 1`), even though the pairwise filters would
reject those same legs; so the admission filters are not applied
identically in the two scan modes. -/
theorem scanGraph_ignores_impact_counterexample :
    scanGraphAdmits cfgEx 20 1 triEx = true ∧
    highImpactQuote.priceImpact > cfgEx.maxSlippageBps / 100 ∧
    (triEx.1.head?.map Edge.quote) = some (some highImpactQuote) ∧
    passesFilters cfgEx highImpactQuote highImpactQuote triEx.2 = false := by
  refine ⟨?_, by norm_num [highImpactQuote, cfgEx], by rfl, ?_⟩
  · rw [scanGraphAdmits]
    norm_num [triEx, cfgEx]
  · rw [passesFilters]
    norm_num [highImpactQuote, cfgEx]

/-- C3 amended: the pairwise scan admits a candidate iff it passes all
three filters (minimum spread, per-leg price-impact ceiling, per-leg known
liquidity floor) and clears the gas-netted profit gate, while the cyclic
scan checks only the minimum-spread filter and its own profit gate — its
decision is entirely independent of the path's quotes, price impacts and
liquidity. -/
theorem scan_admission_filters :
    (∀ (cfg : DetectorConfig) (b s : PriceQuote) (sp : ℚ),
      passesFilters cfg b s sp = true ↔
        (cfg.minProfitBps ≤ sp ∧
         b.priceImpact ≤ cfg.maxSlippageBps / 100 ∧
         s.priceImpact ≤ cfg.maxSlippageBps / 100 ∧
         (b.liquidity ≤ 0 ∨ cfg.minLiquidityUsd ≤ b.liquidity) ∧
         (s.liquidity ≤ 0 ∨ cfg.minLiquidityUsd ≤ s.liquidity))) ∧
    (∀ (cfg : DetectorConfig) (solPrice amount : ℚ) (opp : CrossOpp),
      scanTokenAdmits cfg solPrice amount opp = true ↔
        (passesFilters cfg opp.buyQuote opp.sellQuote opp.spreadBps = true ∧
         0 < opp.spreadBps / 10000 * (amount * solPrice) - 1/1000 * solPrice)) ∧
    (∀ (cfg : DetectorConfig) (solPrice amount : ℚ) (tri : List Edge × ℚ),
      scanGraphAdmits cfg solPrice amount tri = true ↔
        (cfg.minProfitBps ≤ tri.2 ∧
         0 < tri.2 / 10000 * (amount * solPrice) - 3/1000 * solPrice)) ∧
    (∀ (cfg : DetectorConfig) (solPrice amount : ℚ)
        (path path' : List Edge) (bps : ℚ),
      scanGraphAdmits cfg solPrice amount (path, bps) =
        scanGraphAdmits cfg solPrice amount (path', bps)) := by
  refine ⟨?_, ?_, ?_, ?_⟩
  · intro cfg b s sp
    rw [passesFilters]
    split_ifs with h1 h2 h3
    · simp only [Bool.false_eq_true, false_iff]
      intro hc
      exact absurd hc.1 (not_le.mpr h1)
    · simp only [Bool.false_eq_true, false_iff]
      intro hc
      rcases h2 with h2 | h2
      · exact absurd h2 (not_lt.mpr hc.2.1)
      · exact absurd h2 (not_lt.mpr hc.2.2.1)
    · simp only [Bool.false_eq_true, false_iff]
      intro hc
      rcases h3 with ⟨hpos, hlt⟩ | ⟨hpos, hlt⟩
      · rcases hc.2.2.2.1 with hle | hge
        · linarith
        · linarith
      · rcases hc.2.2.2.2 with hle | hge
        · linarith
        · linarith
    · push_neg at h1 h2 h3
      simp only [true_iff]
      refine ⟨h1, h2.1, h2.2, ?_, ?_⟩
      · rcases le_or_lt b.liquidity 0 with hb | hb
        · exact Or.inl hb
        · exact Or.inr (h3.1 hb)
      · rcases le_or_lt s.liquidity 0 with hs | hs
        · exact Or.inl hs
        · exact Or.inr (h3.2 hs)
  · intro cfg solPrice amount opp
    by_cases hf : passesFilters cfg opp.buyQuote opp.sellQuote opp.spreadBps = true
    · simp only [scanTokenAdmits, hf, Bool.not_true, Bool.false_eq_true, if_false]
      split_ifs with h
      · simp only [Bool.false_eq_true, false_iff]
        intro hc
        linarith [hc.2]
      · simp only [true_iff]
        exact ⟨trivial, lt_of_not_le h⟩
    · simp only [Bool.not_eq_true] at hf
      simp [scanTokenAdmits, hf]
  · intro cfg solPrice amount tri
    simp only [scanGraphAdmits]
    split_ifs with h1 h2
    · simp only [Bool.false_eq_true, false_iff]
      intro hc
      exact absurd hc.1 (not_le.mpr h1)
    · simp only [Bool.false_eq_true, false_iff]
      intro hc
      linarith [hc.2]
    · simp only [true_iff]
      exact ⟨not_lt.mp h1, lt_of_not_le h2⟩
  · intro cfg solPrice amount path path2 bps
    rw [scanGraphAdmits, scanGraphAdmits]

/-- `RiskLimits` (risk manager lines 5-14). -/
structure RiskLimits where
  maxTradeSizeSol : ℚ
  maxSlippageBps : ℚ
  minLiquidityUsd : ℚ
  maxPriceImpactBps : ℚ
  minProfitBps : ℚ
  maxGasLamports : ℚ
  maxPositionPercent : ℚ
  dailyLossLimitUsd : ℚ
deriving DecidableEq, Repr

/-- The RiskManager's rolling daily ledger (risk manager lines 27-31). -/
structure RiskState where
  dailyPnL : ℚ
  dailyStartTime : ℚ
  tradeCount : ℕ
  failedTrades : ℕ
deriving DecidableEq, Repr

/-- One step of a triangular opportunity's retained path. -/
structure PathStep where
  fromTok : String
  toTok : String
  dex : String
  quote : PriceQuote
deriving DecidableEq, Repr

/-- `ArbitrageOpportunity` from `src/types` as consumed by the detector,
risk gate and executor. -/
structure ArbitrageOpportunity where
  id : String
  tokenMint : String
  isTriangular : Bool := false
  path : List PathStep := []
  buyDex : String
  buyPrice : ℚ
  buyQuote : PriceQuote
  sellDex : String
  sellPrice : ℚ
  sellQuote : PriceQuote
  spreadBps : ℚ
  estimatedProfitBps : ℚ
  estimatedProfitUsd : ℚ
  tradeSize : ℚ
  tradeSizeUsd : ℚ
  detectedAt : ℚ
  expiresAt : ℚ
deriving DecidableEq, Repr

/-- Rejection reasons produced by `RiskManager.checkTrade`; each
constructor carries the numeric payload interpolated into the source's
template string. -/
inductive RejectReason where
  | dailyLossLimit (lossAbs : ℚ)
  | spreadBelowMin (spreadBps minBps : ℚ)
  | tradeSizeTooSmall
  | buyImpactTooHigh (impactBps : ℚ)
  | sellImpactTooHigh (impactBps : ℚ)
  | combinedSlippageTooHigh (totalBps : ℚ)
  | buyLiquidityBelowMin (liquidity : ℚ)
  | sellLiquidityBelowMin (liquidity : ℚ)
deriving DecidableEq, Repr

/-- Non-fatal warnings pushed by `RiskManager.checkTrade`, with the numeric
payload of each template string. -/
inductive RiskWarning where
  | sizeCappedToMax (maxSize : ℚ)
  | sizeReducedToBalancePct (pct : ℚ)
  | notableSlippage (totalBps : ℚ)
  | tightProfitMargin
  | staleOpportunity (ageMs : ℚ)
deriving DecidableEq, Repr

/-- `RiskCheckResult` (risk manager lines 16-21). -/
structure RiskCheckResult where
  passed : Bool
  reason : Option RejectReason := none
  adjustedSize : Option ℚ := none
  warnings : List RiskWarning
deriving DecidableEq, Repr

/-- `RiskManager.checkDailyReset` (risk manager lines 217-228): zero the
ledger when more than 24h (86_400_000 ms) elapsed since the period start. -/
def checkDailyReset (s : RiskState) (now : ℚ) : RiskState :=
  if now - s.dailyStartTime > 86400000 then
    { dailyPnL := 0, dailyStartTime := now, tradeCount := 0, failedTrades := 0 }
  else s

/-- `RiskManager.recordTrade` (risk manager lines 203-212): always count
the trade; add to P&L only on success; count a failure otherwise. -/
def recordTrade (s : RiskState) (profitUsd : ℚ) (success : Bool) : RiskState :=
  if success then
    { s with tradeCount := s.tradeCount + 1, dailyPnL := s.dailyPnL + profitUsd }
  else
    { s with tradeCount := s.tradeCount + 1, failedTrades := s.failedTrades + 1 }

/-- `RiskManager.checkTrade` (risk manager lines 49-166), with `Date.now()`
passed in as `now`; returns the result together with the (possibly reset)
ledger state. The two sequential clamp `if`s each mutate `adjustedSize` and
push one warning; they are rendered as paired conditionals on the same
conditions. -/
def checkTrade (limits : RiskLimits) (state : RiskState) (now : ℚ)
    (opportunity : ArbitrageOpportunity) (walletBalanceSol : ℚ) :
    RiskCheckResult × RiskState :=
  let s := checkDailyReset state now
  if s.dailyPnL < -limits.dailyLossLimitUsd then
    ({ passed := false, reason := some (RejectReason.dailyLossLimit |s.dailyPnL|),
       warnings := [] }, s)
  else if opportunity.spreadBps < limits.minProfitBps then
    ({ passed := false,
       reason := some (RejectReason.spreadBelowMin opportunity.spreadBps limits.minProfitBps),
       warnings := [] }, s)
  else
    let maxByBalance := walletBalanceSol * (limits.maxPositionPercent / 100)
    let adjustedSize1 :=
      if opportunity.tradeSize > limits.maxTradeSizeSol then limits.maxTradeSizeSol
      else opportunity.tradeSize
    let warnings1 :=
      if opportunity.tradeSize > limits.maxTradeSizeSol then
        [RiskWarning.sizeCappedToMax limits.maxTradeSizeSol]
      else []
    let adjustedSize2 := if adjustedSize1 > maxByBalance then maxByBalance else adjustedSize1
    let warnings2 :=
      warnings1 ++
        (if adjustedSize1 > maxByBalance then
          [RiskWarning.sizeReducedToBalancePct limits.maxPositionPercent]
        else [])
    if adjustedSize2 < 1/100 then
      ({ passed := false, reason := some RejectReason.tradeSizeTooSmall,
         warnings := warnings2 }, s)
    else
      let buyImpact := opportunity.buyQuote.priceImpact * 100
      let sellImpact := opportunity.sellQuote.priceImpact * 100
      if buyImpact > limits.maxPriceImpactBps then
        ({ passed := false, reason := some (RejectReason.buyImpactTooHigh buyImpact),
           warnings := warnings2 }, s)
      else if sellImpact > limits.maxPriceImpactBps then
        ({ passed := false, reason := some (RejectReason.sellImpactTooHigh sellImpact),
           warnings := warnings2 }, s)
      else
        let totalSlippage := buyImpact + sellImpact
        if totalSlippage > limits.maxSlippageBps then
          ({ passed := false,
             reason := some (RejectReason.combinedSlippageTooHigh totalSlippage),
             warnings := warnings2 }, s)
        else
          let warnings3 :=
            warnings2 ++
              (if totalSlippage > limits.maxSlippageBps / 2 then
                [RiskWarning.notableSlippage totalSlippage]
              else [])
          if opportunity.buyQuote.liquidity > 0 ∧
              opportunity.buyQuote.liquidity < limits.minLiquidityUsd then
            ({ passed := false,
               reason := some (RejectReason.buyLiquidityBelowMin opportunity.buyQuote.liquidity),
               warnings := warnings3 }, s)
          else if opportunity.sellQuote.liquidity > 0 ∧
              opportunity.sellQuote.liquidity < limits.minLiquidityUsd then
            ({ passed := false,
               reason := some (RejectReason.sellLiquidityBelowMin opportunity.sellQuote.liquidity),
               warnings := warnings3 }, s)
          else
            let warnings4 :=
              warnings3 ++
                (if opportunity.tradeSize * (opportunity.spreadBps / 10000) < 2/1000 * 2 then
                  [RiskWarning.tightProfitMargin]
                else [])
            let age := now - opportunity.detectedAt
            let warnings5 :=
              warnings4 ++ (if age > 2000 then [RiskWarning.staleOpportunity age] else [])
            ({ passed := true, adjustedSize := some adjustedSize2,
               warnings := warnings5 }, s)

/-- A benign quote: zero impact, unknown (0) liquidity. -/
def benignQuote : PriceQuote := ⟨"orca", "SOL", "TOK", 1, 2, 2, 0, 0, 0⟩

/-- A fresh ledger at epoch 0. -/
def freshRisk : RiskState := ⟨0, 0, 0, 0⟩

/-- Concrete risk limits with `dailyLossLimitUsd = 50` (and the source's
constructor defaults `maxPriceImpactBps = 200`, `maxPositionPercent = 50`). -/
def limitsEx : RiskLimits := ⟨1, 100, 1000, 200, 50, 1000000, 50, 50⟩

/-- An opportunity that passes every `checkTrade` filter under
`limitsEx`. -/
def oppBenign : ArbitrageOpportunity :=
  { id := "opp-1", tokenMint := "TOK",
    buyDex := "orca", buyPrice := 1/2, buyQuote := benignQuote,
    sellDex := "jupiter", sellPrice := 2, sellQuote := benignQuote,
    spreadBps := 100, estimatedProfitBps := 90, estimatedProfitUsd := 1,
    tradeSize := 1/2, tradeSizeUsd := 10,
    detectedAt := 500, expiresAt := 5500 }

/-- Counterexample to C4: recording a failed trade with −60 USD leaves the
daily P&L untouched (failures only bump the failure counter), so with
`dailyLossLimitUsd = 50` the next `checkTrade` does not reject — it passes
on an otherwise admissible opportunity. -/
theorem recordTrade_failure_no_loss_gate :
    (recordTrade freshRisk (-60) false).dailyPnL = 0 ∧
    (checkTrade limitsEx (recordTrade freshRisk (-60) false) 1000 oppBenign 10).1.passed
      = true ∧
    (checkTrade limitsEx (recordTrade freshRisk (-60) false) 1000 oppBenign 10).1.reason
      = none := by
  refine ⟨by norm_num [recordTrade, freshRisk], ?_, ?_⟩ <;>
    · simp only [checkTrade, checkDailyReset, recordTrade, freshRisk, limitsEx, oppBenign,
        benignQuote]
      norm_num

/-- C4 amended: `recordTrade` always increments the trade count, adds to
P&L only on success and increments the failure count on failure (leaving
P&L unchanged, so a failed trade's loss never trips the daily ceiling);
after a −60 USD loss recorded as a successful trade against
`dailyLossLimitUsd = 50`, the next `checkTrade` rejects regardless of the
opportunity and wallet balance, with a reason carrying the loss amount. -/
theorem recordTrade_ledger_and_daily_loss_gate :
    (∀ (s : RiskState) (p : ℚ),
      recordTrade s p true =
        { s with tradeCount := s.tradeCount + 1, dailyPnL := s.dailyPnL + p } ∧
      recordTrade s p false =
        { s with tradeCount := s.tradeCount + 1, failedTrades := s.failedTrades + 1 }) ∧
    (∀ (opp : ArbitrageOpportunity) (wb : ℚ),
      (checkTrade limitsEx (recordTrade freshRisk (-60) true) 1000 opp wb).1 =
        { passed := false, reason := some (RejectReason.dailyLossLimit 60),
          adjustedSize := none, warnings := [] }) := by
  constructor
  · intro s p
    exact ⟨rfl, rfl⟩
  · intro opp wb
    simp only [checkTrade, checkDailyReset, recordTrade, freshRisk, limitsEx]
    norm_num

/-- The two sequential clamp conditionals compute the minimum of the three
bounds (helper for C5). -/
theorem clamp_eq_min (T M P : ℚ) :
    (if (if T > M then M else T) > P then P else if T > M then M else T) =
      min (min T M) P := by
  rw [min_def, min_def]
  split_ifs <;> linarith

set_option maxHeartbeats 2000000 in
/-- C5: once `checkTrade` reaches the size-clamp step (neither the daily
loss ceiling nor the minimum-spread check rejected), the proposed size is
`min(opportunity size, maxTradeSizeSol, walletBalance * maxPositionPercent
/ 100)`; the check rejects with the dust-floor reason when that minimum is
below 0.01, a passing check returns it as `adjustedSize`, and whenever the
clamp actually reduced the size one of the two clamp warnings is present. -/
theorem checkTrade_size_clamp (L : RiskLimits) (s : RiskState) (now wb : ℚ)
    (opp : ArbitrageOpportunity)
    (h1 : ¬((checkDailyReset s now).dailyPnL < -L.dailyLossLimitUsd))
    (h2 : ¬(opp.spreadBps < L.minProfitBps)) :
    (min (min opp.tradeSize L.maxTradeSizeSol) (wb * (L.maxPositionPercent / 100)) < 1/100 →
      (checkTrade L s now opp wb).1.passed = false ∧
      (checkTrade L s now opp wb).1.reason = some RejectReason.tradeSizeTooSmall) ∧
    ((checkTrade L s now opp wb).1.passed = true →
      (checkTrade L s now opp wb).1.adjustedSize =
        some (min (min opp.tradeSize L.maxTradeSizeSol)
          (wb * (L.maxPositionPercent / 100)))) ∧
    (min (min opp.tradeSize L.maxTradeSizeSol) (wb * (L.maxPositionPercent / 100)) <
        opp.tradeSize →
      RiskWarning.sizeCappedToMax L.maxTradeSizeSol ∈ (checkTrade L s now opp wb).1.warnings ∨
      RiskWarning.sizeReducedToBalancePct L.maxPositionPercent ∈
        (checkTrade L s now opp wb).1.warnings) := by
  simp only [checkTrade]
  rw [if_neg h1, if_neg h2, clamp_eq_min]
  refine ⟨?_, ?_, ?_⟩
  · intro hm
    rw [if_pos hm]
    exact ⟨rfl, rfl⟩
  · intro hp
    by_cases hd :
        min (min opp.tradeSize L.maxTradeSizeSol) (wb * (L.maxPositionPercent / 100)) < 1/100
    · rw [if_pos hd] at hp
      simp at hp
    · rw [if_neg hd] at hp ⊢
      split_ifs at hp ⊢ <;> rfl
  · intro hlt
    by_cases hA : opp.tradeSize > L.maxTradeSizeSol
    · simp only [if_pos hA]
      split_ifs <;> exact Or.inl (by simp)
    · have hTM : opp.tradeSize ≤ L.maxTradeSizeSol := not_lt.mp hA
      have hPT : wb * (L.maxPositionPercent / 100) < opp.tradeSize := by
        rw [min_eq_left hTM] at hlt
        rcases min_lt_iff.mp hlt with h | h
        · exact absurd h (lt_irrefl _)
        · exact h
      simp only [if_neg hA, if_pos hPT]
      split_ifs <;> exact Or.inr (by simp)

/-- The clamp example opportunity: trade size 8 against
`maxTradeSizeSol = 1` and a 10-SOL wallet at 50% max position. -/
def oppClamp : ArbitrageOpportunity := { oppBenign with tradeSize := 8 }

/-- Witness for C5 at the spec's inputs (walletBalance 10,
maxPositionPercent 50, opportunity size 8, maxTradeSizeSol 1): the check
passes with `adjustedSize = 1` — the smallest of the three bounds — and a
clamp warning is present. -/
theorem checkTrade_size_clamp_witness :
    (checkTrade limitsEx freshRisk 1000 oppClamp 10).1.passed = true ∧
    (checkTrade limitsEx freshRisk 1000 oppClamp 10).1.adjustedSize = some 1 ∧
    (RiskWarning.sizeCappedToMax limitsEx.maxTradeSizeSol ∈
        (checkTrade limitsEx freshRisk 1000 oppClamp 10).1.warnings ∨
      RiskWarning.sizeReducedToBalancePct limitsEx.maxPositionPercent ∈
        (checkTrade limitsEx freshRisk 1000 oppClamp 10).1.warnings) := by
  have h := checkTrade_size_clamp limitsEx freshRisk 1000 10 oppClamp
    (by norm_num [checkDailyReset, freshRisk, limitsEx])
    (by norm_num [oppClamp, oppBenign, limitsEx])
  have hp : (checkTrade limitsEx freshRisk 1000 oppClamp 10).1.passed = true := by
    simp only [checkTrade, checkDailyReset, freshRisk, limitsEx, oppClamp, oppBenign,
      benignQuote]
    norm_num
  refine ⟨hp, ?_, ?_⟩
  · rw [h.2.1 hp]
    norm_num [oppClamp, oppBenign, limitsEx]
  · exact h.2.2 (by norm_num [oppClamp, oppBenign, limitsEx])

/-- `ArbitrageDetector.getActiveOpportunities` (detector.ts lines 245-253),
with the `opportunities` map rendered as its insertion-ordered entry list
and `Date.now()` passed as `now`: walk the entries, pushing still-active
opportunities (`expiresAt > now`) onto the result and deleting expired
ones from the map. Returns (active list, remaining map entries). -/
def getActiveOpportunities (opportunities : List (String × ArbitrageOpportunity))
    (now : ℚ) : List ArbitrageOpportunity × List (String × ArbitrageOpportunity) :=
  match opportunities with
  | [] => ([], [])
  | (id, opp) :: rest =>
    let r := getActiveOpportunities rest now
    if opp.expiresAt > now then (opp :: r.1, (id, opp) :: r.2)
    else r

/-- An opportunity detected at t = 100000 with the default 5000 ms TTL. -/
def oppTtl : ArbitrageOpportunity :=
  { oppBenign with id := "opp-ttl", detectedAt := 100000, expiresAt := 100000 + 5000 }

/-- C6: the active-set query returns exactly the stored opportunities with
`expiresAt > now` (in stored order) and the map afterwards holds exactly
those same entries — every expired entry is removed, no active entry ever
is; in particular an opportunity with ttl = 5000 ms is present (and kept)
when queried 4000 ms after detection and absent (and removed) 5001 ms
after detection. -/
theorem getActiveOpportunities_spec :
    (∀ (m : List (String × ArbitrageOpportunity)) (now : ℚ),
      getActiveOpportunities m now =
        ((m.filter fun e => decide (e.2.expiresAt > now)).map fun e => e.2,
         m.filter fun e => decide (e.2.expiresAt > now))) ∧
    getActiveOpportunities [("opp-ttl", oppTtl)] (100000 + 4000) =
      ([oppTtl], [("opp-ttl", oppTtl)]) ∧
    getActiveOpportunities [("opp-ttl", oppTtl)] (100000 + 5001) = ([], []) := by
  have hmain : ∀ (m : List (String × ArbitrageOpportunity)) (now : ℚ),
      getActiveOpportunities m now =
        ((m.filter fun e => decide (e.2.expiresAt > now)).map fun e => e.2,
         m.filter fun e => decide (e.2.expiresAt > now)) := by
    intro m now
    induction m with
    | nil => rfl
    | cons e rest ih =>
      obtain ⟨id, opp⟩ := e
      rw [getActiveOpportunities]
      by_cases h : opp.expiresAt > now
      · simp [ih, List.filter_cons, h]
      · simp [ih, List.filter_cons, h]
  refine ⟨hmain, ?_, ?_⟩
  · rw [hmain]
    norm_num [oppTtl, oppBenign, List.filter_cons]
  · rw [hmain]
    norm_num [oppTtl, oppBenign, List.filter_cons]

/-- `TradeResult` from `src/types` as built by `TradeExecutor.execute`
(executor lines 782-787, 816-829): success flag, transaction hash for both
legs (the same atomic transaction), and the causal error text on failure. -/
structure TradeResult where
  success : Bool
  buyTxHash : Option String := none
  sellTxHash : Option String := none
  error : Option String := none
deriving DecidableEq, Repr

/-- The executor's aggregate counters (executor lines 755-757). -/
structure ExecutorStats where
  executedTrades : ℕ
  successfulTrades : ℕ
  failedTrades : ℕ
deriving DecidableEq, Repr

/-- The outcome of each awaited effect inside one `execute` call
(executor lines 790-825): whether `wallet.getKeypair()` returns a keypair;
what `buildAtomicTransaction` returns (it catches internally and yields
`null` on any build error); what the submission step
(`submitTransaction` / `submitJitoBundle`) does — a transaction hash, or a
thrown transport error; and what `confirmTransaction` reports (it catches
internally and yields `false` on any confirmation error). -/
structure ExecEnv where
  keypair : Bool
  buildResult : Option String
  submitResult : Except String String
  confirmResult : Bool

/-- The `try` block of `TradeExecutor.execute` (executor lines 789-826) in
the `Except` monad: each `throw` is a thrown `Error`, caught by the single
`catch` in `execute`. -/
def executeAttempt (env : ExecEnv) : Except String String := do
  if !env.keypair then throw "Wallet not initialized"
  match env.buildResult with
  | none => throw "Failed to build transaction"
  | some _tx =>
    match env.submitResult with
    | Except.error e => throw e
    | Except.ok txHash =>
      if env.confirmResult then pure txHash
      else throw "Transaction not confirmed"

/-- `TradeExecutor.execute` (executor lines 779-849): on a confirmed
transaction the result is successful with the tx hash on both legs and the
success counter bumps; on any caught error the result carries the causal
message and the failure counter bumps; the executed-trade counter bumps
either way. -/
def execute (env : ExecEnv) (stats : ExecutorStats) : TradeResult × ExecutorStats :=
  match executeAttempt env with
  | Except.ok txHash =>
    ({ success := true, buyTxHash := some txHash, sellTxHash := some txHash },
     { executedTrades := stats.executedTrades + 1,
       successfulTrades := stats.successfulTrades + 1,
       failedTrades := stats.failedTrades })
  | Except.error e =>
    ({ success := false, error := some e },
     { executedTrades := stats.executedTrades + 1,
       successfulTrades := stats.successfulTrades,
       failedTrades := stats.failedTrades + 1 })

/-- C7: `execute` totalises every failure path into a returned
`TradeResult` — no signer, build returning null, a thrown submission
error, and an unconfirmed transaction each produce `success = false` with
the causal message in `error`, while the confirmed path succeeds with the
hash on both legs; every call increments the executed-trade counter and
exactly one of the success/failure counters, and the error field is empty
exactly on success. -/
theorem execute_total_spec :
    (∀ (env : ExecEnv) (stats : ExecutorStats),
      (execute env stats).2.executedTrades = stats.executedTrades + 1 ∧
      (execute env stats).2.successfulTrades =
        stats.successfulTrades + (if (execute env stats).1.success then 1 else 0) ∧
      (execute env stats).2.failedTrades =
        stats.failedTrades + (if (execute env stats).1.success then 0 else 1) ∧
      ((execute env stats).1.error = none ↔ (execute env stats).1.success = true)) ∧
    (∀ (stats : ExecutorStats) (b : Option String) (sub : Except String String) (c : Bool),
      (execute ⟨false, b, sub, c⟩ stats).1 =
        { success := false, error := some "Wallet not initialized" }) ∧
    (∀ (stats : ExecutorStats) (sub : Except String String) (c : Bool),
      (execute ⟨true, none, sub, c⟩ stats).1 =
        { success := false, error := some "Failed to build transaction" }) ∧
    (∀ (stats : ExecutorStats) (tx e : String) (c : Bool),
      (execute ⟨true, some tx, Except.error e, c⟩ stats).1 =
        { success := false, error := some e }) ∧
    (∀ (stats : ExecutorStats) (tx h : String),
      (execute ⟨true, some tx, Except.ok h, false⟩ stats).1 =
        { success := false, error := some "Transaction not confirmed" }) ∧
    (∀ (stats : ExecutorStats) (tx h : String),
      (execute ⟨true, some tx, Except.ok h, true⟩ stats).1 =
        { success := true, buyTxHash := some h, sellTxHash := some h }) := by
  refine ⟨?_, ?_, ?_, ?_, ?_, ?_⟩
  · intro env stats
    rcases henv : executeAttempt env with h | e
    · simp [execute, henv]
    · simp [execute, henv]
  · intro stats b sub c
    rfl
  · intro stats sub c
    rfl
  · intro stats tx e c
    rfl
  · intro stats tx h
    rfl
  · intro stats tx h
    rfl

/-- The detector's owned stores (detector.ts lines 24-25): the
active-opportunity `Map` (as its insertion-ordered entry list) and the
append-only history array. -/
structure DetectorState where
  opportunities : List (String × ArbitrageOpportunity)
  opportunityHistory : List ArbitrageOpportunity

/-- JavaScript `Map.set`: replace the entry with the same key in place,
append otherwise. -/
def mapSet (m : List (String × ArbitrageOpportunity)) (k : String)
    (v : ArbitrageOpportunity) : List (String × ArbitrageOpportunity) :=
  match m with
  | [] => [(k, v)]
  | (k2, v2) :: rest => if k2 = k then (k, v) :: rest else (k2, v2) :: mapSet rest k v

/-- JavaScript `Map.get`: first entry with the key, if any. -/
def mapGet (m : List (String × ArbitrageOpportunity)) (k : String) :
    Option ArbitrageOpportunity :=
  match m with
  | [] => none
  | (k2, v) :: rest => if k2 = k then some v else mapGet rest k

/-- `ArbitrageDetector.notifyCallbacks` (detector.ts lines 239-243): each
registered callback is invoked inside its own `try`/`catch`
(`try { callback(opp) } catch (e) { logger.error(...) }`), so a throwing
callback only contributes a logged error and the loop continues. A
callback is modelled as returning `Except String Unit`; the function
returns how many callbacks were invoked and the logged error messages. -/
def notifyCallbacks (callbacks : List (ArbitrageOpportunity → Except String Unit))
    (opp : ArbitrageOpportunity) : ℕ × List String :=
  match callbacks with
  | [] => (0, [])
  | cb :: rest =>
    let logged : List String :=
      match cb opp with
      | Except.ok _ => []
      | Except.error e => [e]
    let r := notifyCallbacks rest opp
    (r.1 + 1, logged ++ r.2)

/-- The emission step shared by `scanToken` and `scanGraph`
(detector.ts lines 194-206 and 116-128): store the opportunity in the map
keyed by id, push it onto the history, and notify every callback. -/
def emitOpportunity (st : DetectorState) (opp : ArbitrageOpportunity)
    (callbacks : List (ArbitrageOpportunity → Except String Unit)) :
    DetectorState × ℕ × List String :=
  ({ opportunities := mapSet st.opportunities opp.id opp,
     opportunityHistory := st.opportunityHistory ++ [opp] },
   notifyCallbacks callbacks opp)

/-- C9: emission appends the opportunity to the history, inserts it into
the map under its id (leaving every other key's binding unchanged), and
invokes every registered callback — the invocation count equals the number
of callbacks even when some of them throw, each thrown message being
caught into the log rather than aborting the remaining callbacks. -/
theorem emitOpportunity_spec :
    (∀ (st : DetectorState) (opp : ArbitrageOpportunity)
        (callbacks : List (ArbitrageOpportunity → Except String Unit)),
      (emitOpportunity st opp callbacks).1.opportunityHistory =
        st.opportunityHistory ++ [opp] ∧
      mapGet (emitOpportunity st opp callbacks).1.opportunities opp.id = some opp ∧
      (emitOpportunity st opp callbacks).2.1 = callbacks.length ∧
      (emitOpportunity st opp callbacks).2.2 = callbacks.filterMap fun cb =>
        match cb opp with
        | Except.ok _ => none
        | Except.error e => some e) ∧
    (∀ (m : List (String × ArbitrageOpportunity)) (k k2 : String)
        (v : ArbitrageOpportunity),
      mapGet (mapSet m k v) k2 = if k2 = k then some v else mapGet m k2) := by
  have hget : ∀ (m : List (String × ArbitrageOpportunity)) (k k2 : String)
      (v : ArbitrageOpportunity),
      mapGet (mapSet m k v) k2 = if k2 = k then some v else mapGet m k2 := by
    intro m k k2 v
    induction m with
    | nil =>
      by_cases h : k2 = k
      · simp [mapSet, mapGet, h]
      · have hk : ¬(k = k2) := fun h2 => h (Eq.symm h2)
        simp [mapSet, mapGet, h, hk]
    | cons e rest ih =>
      obtain ⟨ke, ve⟩ := e
      by_cases he : ke = k
      · subst he
        by_cases h : k2 = ke
        · simp [mapSet, mapGet, h]
        · have hk : ¬(ke = k2) := fun h2 => h (Eq.symm h2)
          simp [mapSet, mapGet, h, hk]
      · by_cases h2 : ke = k2
        · subst h2
          simp [mapSet, mapGet, he]
        · simp [mapSet, mapGet, he, h2, ih]
  have hcount : ∀ (callbacks : List (ArbitrageOpportunity → Except String Unit))
      (opp : ArbitrageOpportunity),
      (notifyCallbacks callbacks opp).1 = callbacks.length ∧
      (notifyCallbacks callbacks opp).2 = callbacks.filterMap fun cb =>
        match cb opp with
        | Except.ok _ => none
        | Except.error e => some e := by
    intro callbacks opp
    induction callbacks with
    | nil => exact ⟨rfl, rfl⟩
    | cons cb rest ih =>
      rw [notifyCallbacks]
      rcases hcb : cb opp with u | e
      · simp [hcb, ih.1, ih.2, List.filterMap_cons]
      · simp [hcb, ih.1, ih.2, List.filterMap_cons]
  refine ⟨fun st opp callbacks => ⟨rfl, ?_, (hcount callbacks opp).1,
    (hcount callbacks opp).2⟩, hget⟩
  rw [emitOpportunity]
  simp [hget]

/-- `ArbitrageDetector.getHistory` (detector.ts line 264):
`this.opportunityHistory.slice(-limit)`. For a positive integer `limit`
the negative start index clamps to `max(length - limit, 0)` (ℕ
subtraction); for `limit = 0` the start index is `-0 === 0`, so the whole
history is returned. -/
def getHistory (opportunityHistory : List ArbitrageOpportunity) (limit : ℕ) :
    List ArbitrageOpportunity :=
  if limit = 0 then opportunityHistory
  else opportunityHistory.drop (opportunityHistory.length - limit)

/-- C10: for every `limit ≥ 1`, `getHistory` returns the
`min(limit, length)` most recent entries in detection order (it is the
suffix of the history completing the dropped prefix); for `limit = 0` it
returns the entire history, not an empty list. -/
theorem getHistory_spec :
    (∀ (h : List ArbitrageOpportunity) (limit : ℕ),
      (getHistory h (limit + 1)).length = min (limit + 1) h.length ∧
      h.take (h.length - (limit + 1)) ++ getHistory h (limit + 1) = h) ∧
    (∀ (h : List ArbitrageOpportunity), getHistory h 0 = h) := by
  refine ⟨fun h limit => ⟨?_, ?_⟩, fun h => rfl⟩
  · rw [getHistory, if_neg (Nat.succ_ne_zero limit), List.length_drop]
    omega
  · rw [getHistory, if_neg (Nat.succ_ne_zero limit)]
    exact List.take_append_drop _ h
